import Mathlib

/-!
Shallow embedding of `captcha_solver.js`: a batch pipeline that enumerates
PNG files of an image directory, calls a vision API per file, accumulates
token/cost/time totals, and writes a timestamped report.

Numbers: the JS arithmetic on costs and times is embedded over `ℚ`
(exact rational arithmetic standing for the JS floating-point values);
token counts are `ℕ`.  The external API call (`processImage`) is embedded
as an oracle `String → Except String RecognitionOk`: `.ok` is a successful
recognition, `.error` is any thrown error (unreadable image or API failure).
-/

namespace Captcha

/-! ## Cost model (`calculateCost`, captcha_solver.js lines 37–51) -/

/-- `INPUT_PRICE_PER_1K`: $0.01 per 1K input tokens (line 39). -/
def INPUT_PRICE_PER_1K : ℚ := 0.01

/-- `OUTPUT_PRICE_PER_1K`: $0.03 per 1K output tokens (line 40). -/
def OUTPUT_PRICE_PER_1K : ℚ := 0.03

/-- The `{ usd, tl }` object returned by `calculateCost`. -/
structure Cost where
  usd : ℚ
  tl : ℚ
  deriving DecidableEq, Repr

/-- `calculateCost(inputTokens, outputTokens)` (lines 37–51).  `usdToTl` is
the module-level constant `USD_TO_TL` (line 18), passed as a parameter. -/
def calculateCost (usdToTl : ℚ) (inputTokens outputTokens : ℕ) : Cost :=
  let inputCost := ((inputTokens : ℚ) / 1000) * INPUT_PRICE_PER_1K
  let outputCost := ((outputTokens : ℚ) / 1000) * OUTPUT_PRICE_PER_1K
  let totalUSD := inputCost + outputCost
  let totalTL := totalUSD * usdToTl
  { usd := totalUSD, tl := totalTL }

/-! ## Recognition results (`processImage`, lines 64–118) -/

/-- The `stats` object of a successful `processImage` call, minus the cost
(the cost is recomputed from the token counts by `calculateCost`, exactly
as `processImage` line 103 does). -/
structure RecognitionStats where
  responseTime : ℚ
  inputTokens : ℕ
  outputTokens : ℕ
  totalTokens : ℕ
  deriving DecidableEq, Repr

/-- A successful `processImage` result: extracted text plus stats. -/
structure RecognitionOk where
  text : String
  stats : RecognitionStats
  deriving DecidableEq, Repr

/-- The recognizer oracle: for a file name, either a successful result or
the message of the thrown error (lines 59, 116). -/
def RecognizeFn : Type := String → Except String RecognitionOk

/-! ## File eligibility and ordering (lines 146–148)

`fs.readdirSync(IMAGE_DIR).filter(file => file.toLowerCase().endsWith('.png')).sort()`.
JS `.sort()` without a comparator sorts strings lexicographically by code
unit; we embed that order on `String` via the character list. -/

/-- Case-insensitive `.png` suffix test:
`file.toLowerCase().endsWith('.png')` (line 147). -/
def isEligible (s : String) : Bool :=
  let l := s.data.map Char.toLower
  decide (l.drop (l.length - 4) = ['.', 'p', 'n', 'g'])

/-- Lexicographic (code-unit) non-strict order on character lists, the
order used by JS default `Array.prototype.sort` on strings. -/
def lexLe : List Char → List Char → Bool
  | [], _ => true
  | _ :: _, [] => false
  | a :: as, b :: bs =>
    if a.toNat < b.toNat then true
    else if b.toNat < a.toNat then false
    else lexLe as bs

/-- Lexicographic order on file names. -/
def strLe (a b : String) : Bool := lexLe a.data b.data

/-- `strLe` as a `Prop`-valued relation, for sortedness statements. -/
def strLeProp (a b : String) : Prop := strLe a b = true

instance : DecidableRel strLeProp := fun a b => by
  unfold strLeProp; infer_instance

/-- The eligible-file list: filter to `.png` (case-insensitive), then sort
lexicographically ascending (lines 146–148). -/
def eligibleFiles (entries : List String) : List String :=
  List.insertionSort strLeProp (entries.filter isEligible)

/-! ## Report entries (lines 168–173 and 187–193)

Each `results.push` appends one formatted text block; we embed the block
structurally, one constructor field per datum interpolated into the JS
template string. -/

/-- A report entry: either a per-file block (lines 168–173) with file name,
extracted text, response time, token usage and cost, or the single trailing
`Total Statistics` block (lines 187–193) with total time, total tokens,
average tokens and total cost. -/
inductive Entry where
  | item (fileName : String) (text : String) (responseTime : ℚ)
      (totalTokens inputTokens outputTokens : ℕ) (costUsd costTl : ℚ)
  | aggregate (totalTime : ℚ) (totalTokens : ℕ) (averageTokens : ℚ)
      (costUsd costTl : ℚ)
  deriving DecidableEq, Repr

/-- The `totalTokens` datum of an entry (the `Token Usage` / `Total Tokens`
figure of the formatted block). -/
def Entry.entryTokens : Entry → ℕ
  | .item _ _ _ tot _ _ _ _ => tot
  | .aggregate _ tot _ _ _ => tot

/-! ## The main loop state (lines 139–143) -/

/-- The mutable locals of `main`: the `results` array, the four running
totals, plus the observable side effects of the loop — the
`console.error` log (file name, error message) of line 182 and the list of
`setTimeout` delays awaited at line 180 (one element per invocation,
holding the millisecond argument). -/
structure RunState where
  results : List Entry
  totalCostUSD : ℚ
  totalCostTL : ℚ
  totalTime : ℚ
  totalTokens : ℕ
  errors : List (String × String)
  delays : List ℕ
  deriving DecidableEq, Repr

/-- The state at loop entry (lines 139–143): empty results, zero totals. -/
def initState : RunState :=
  { results := [], totalCostUSD := 0, totalCostTL := 0, totalTime := 0,
    totalTokens := 0, errors := [], delays := [] }

/-- Number of successfully processed items folded into the report so far
(the spec's `processedCount`): the length of the `results` array during the
loop, before the aggregate block is pushed. -/
def RunState.processedCount (st : RunState) : ℕ := st.results.length

/-- The per-file report block pushed at lines 168–173 on success. -/
def mkItemEntry (usdToTl : ℚ) (file : String) (r : RecognitionOk) : Entry :=
  let cost := calculateCost usdToTl r.stats.inputTokens r.stats.outputTokens
  .item file r.text r.stats.responseTime r.stats.totalTokens
    r.stats.inputTokens r.stats.outputTokens cost.usd cost.tl

/-- One iteration of the `for (const file of files)` loop (lines 157–184).
On success (`try` body, lines 162–180): add cost, time and tokens to the
totals, push the formatted entry, then await the rate-limiting delay.
On failure (`catch`, lines 181–183): log the error with the file name and
message; nothing else — note the delay of line 180 sits inside the `try`
block, so it is skipped after a failure. -/
def step (usdToTl : ℚ) (delayMs : ℕ) (recognize : RecognizeFn)
    (st : RunState) (file : String) : RunState :=
  match recognize file with
  | .ok r =>
    let cost := calculateCost usdToTl r.stats.inputTokens r.stats.outputTokens
    { st with
      totalCostUSD := st.totalCostUSD + cost.usd
      totalCostTL := st.totalCostTL + cost.tl
      totalTime := st.totalTime + r.stats.responseTime
      totalTokens := st.totalTokens + r.stats.totalTokens
      results := st.results ++ [mkItemEntry usdToTl file r]
      delays := st.delays ++ [delayMs] }
  | .error msg =>
    { st with errors := st.errors ++ [(file, msg)] }

/-- The whole `for` loop of lines 157–184, iterated over the file list. -/
def processLoop (usdToTl : ℚ) (delayMs : ℕ) (recognize : RecognizeFn) :
    List String → RunState → RunState
  | [], st => st
  | f :: rest, st => processLoop usdToTl delayMs recognize rest (step usdToTl delayMs recognize st f)

/-! ## Startup environment and `main` (lines 7–10, 121–132, 135–209) -/

/-- The external conditions `main` observes at startup: whether
`OPENAI_API_KEY` is set (line 7), whether the image directory exists
(line 128), and the raw entries `fs.readdirSync(IMAGE_DIR)` returns
(line 146). -/
structure Env where
  apiKeyPresent : Bool
  imageDirExists : Bool
  imageDirEntries : List String

/-- The components of `new Date()` as JS reads them in
`getTimestampFilename` (lines 31–34); `month` is 0-based, as returned by
`getMonth()`. -/
structure Timestamp where
  year : ℕ
  month : ℕ
  day : ℕ
  hour : ℕ
  minute : ℕ
  second : ℕ

/-- `toString().padStart(2, '0')` on a numeric date component. -/
def pad2 (n : ℕ) : String := if n < 10 then "0" ++ toString n else toString n

/-- `getTimestampFilename()` (lines 31–34):
`results-<YYYY><MM><DD>-<HH><MM><SS>.txt`, with `getMonth() + 1`. -/
def getTimestampFilename (t : Timestamp) : String :=
  "results-" ++ toString t.year ++ pad2 (t.month + 1) ++ pad2 t.day ++ "-"
    ++ pad2 t.hour ++ pad2 t.minute ++ pad2 t.second ++ ".txt"

/-- `RESULTS_DIR` (line 19). -/
def RESULTS_DIR : String := "results"

/-- The trailing `Total Statistics` block (lines 187–193); `numFiles` is
`files.length`, the denominator of `Average Tokens` at line 191. -/
def aggEntry (st : RunState) (numFiles : ℕ) : Entry :=
  .aggregate st.totalTime st.totalTokens ((st.totalTokens : ℚ) / (numFiles : ℚ))
    st.totalCostUSD st.totalCostTL

/-- Outcome of running the program: either `process.exit(code)` before the
report is written, or completion with the single `fs.writeFileSync` (line
197) — the report path, the entry list joined into the file, and the final
loop state. -/
inductive MainResult where
  | exited (code : ℕ)
  | completed (reportPath : String) (reportEntries : List Entry) (finalState : RunState)
  deriving Repr

/-- The report entries of a completed run (empty when the process exited
before writing). -/
def MainResult.entriesOf : MainResult → List Entry
  | .exited _ => []
  | .completed _ e _ => e

/-- The whole program: the `OPENAI_API_KEY` check (lines 7–10), the image
directory check in `initializeDirectories` (lines 128–131), enumeration,
filtering and sorting (lines 146–148), the zero-file check (lines 150–153),
the processing loop (lines 157–184), the aggregate push (lines 187–193)
and the single timestamped write (lines 196–197). -/
def mainRun (usdToTl : ℚ) (delayMs : ℕ) (recognize : RecognizeFn)
    (env : Env) (ts : Timestamp) : MainResult :=
  if !env.apiKeyPresent then .exited 1
  else if !env.imageDirExists then .exited 1
  else
    let files := eligibleFiles env.imageDirEntries
    if files.length = 0 then .exited 1
    else
      let st := processLoop usdToTl delayMs recognize files initState
      .completed (RESULTS_DIR ++ "/" ++ getTimestampFilename ts)
        (st.results ++ [aggEntry st files.length]) st

/-! ## Specification-side summaries of the loop

Recursive functions describing, per file list, what the loop appends and
accumulates; the master lemma `processLoop_spec` below relates them to
`processLoop`. -/

/-- The per-file report entries the loop pushes: one per successful file,
in list order. -/
def okEntries (usdToTl : ℚ) (recognize : RecognizeFn) : List String → List Entry
  | [] => []
  | f :: rest =>
    match recognize f with
    | .ok r => mkItemEntry usdToTl f r :: okEntries usdToTl recognize rest
    | .error _ => okEntries usdToTl recognize rest

/-- The error log the loop produces: one (file, message) pair per failing
file, in list order. -/
def errLog (recognize : RecognizeFn) : List String → List (String × String)
  | [] => []
  | f :: rest =>
    match recognize f with
    | .ok _ => errLog recognize rest
    | .error m => (f, m) :: errLog recognize rest

/-- Number of successful files in the list. -/
def okCount (recognize : RecognizeFn) : List String → ℕ
  | [] => 0
  | f :: rest =>
    match recognize f with
    | .ok _ => okCount recognize rest + 1
    | .error _ => okCount recognize rest

/-- Sum of `totalTokens` over the successful files. -/
def sumTokens (recognize : RecognizeFn) : List String → ℕ
  | [] => 0
  | f :: rest =>
    match recognize f with
    | .ok r => r.stats.totalTokens + sumTokens recognize rest
    | .error _ => sumTokens recognize rest

/-- Sum of `inputTokens` over the successful files. -/
def sumInputTokens (recognize : RecognizeFn) : List String → ℕ
  | [] => 0
  | f :: rest =>
    match recognize f with
    | .ok r => r.stats.inputTokens + sumInputTokens recognize rest
    | .error _ => sumInputTokens recognize rest

/-- Sum of `outputTokens` over the successful files. -/
def sumOutputTokens (recognize : RecognizeFn) : List String → ℕ
  | [] => 0
  | f :: rest =>
    match recognize f with
    | .ok r => r.stats.outputTokens + sumOutputTokens recognize rest
    | .error _ => sumOutputTokens recognize rest

/-- Sum of response times over the successful files. -/
def sumTime (recognize : RecognizeFn) : List String → ℚ
  | [] => 0
  | f :: rest =>
    match recognize f with
    | .ok r => r.stats.responseTime + sumTime recognize rest
    | .error _ => sumTime recognize rest

/-- Sum of USD costs over the successful files. -/
def sumCostUsd (usdToTl : ℚ) (recognize : RecognizeFn) : List String → ℚ
  | [] => 0
  | f :: rest =>
    match recognize f with
    | .ok r => (calculateCost usdToTl r.stats.inputTokens r.stats.outputTokens).usd
        + sumCostUsd usdToTl recognize rest
    | .error _ => sumCostUsd usdToTl recognize rest

/-- Sum of TL costs over the successful files. -/
def sumCostTl (usdToTl : ℚ) (recognize : RecognizeFn) : List String → ℚ
  | [] => 0
  | f :: rest =>
    match recognize f with
    | .ok r => (calculateCost usdToTl r.stats.inputTokens r.stats.outputTokens).tl
        + sumCostTl usdToTl recognize rest
    | .error _ => sumCostTl usdToTl recognize rest

/-- Master lemma: the loop's final state, from any starting state, in
closed form — entries and errors are appended in order, totals are summed
over the successful files, and one delay of `delayMs` is recorded per
successful file. -/
theorem processLoop_spec (u : ℚ) (d : ℕ) (rec : RecognizeFn)
    (files : List String) (st : RunState) :
    processLoop u d rec files st =
      { results := st.results ++ okEntries u rec files
        totalCostUSD := st.totalCostUSD + sumCostUsd u rec files
        totalCostTL := st.totalCostTL + sumCostTl u rec files
        totalTime := st.totalTime + sumTime rec files
        totalTokens := st.totalTokens + sumTokens rec files
        errors := st.errors ++ errLog rec files
        delays := st.delays ++ List.replicate (okCount rec files) d } := by
  induction files generalizing st with
  | nil =>
    simp [processLoop, okEntries, errLog, okCount, sumTokens, sumTime,
      sumCostUsd, sumCostTl]
  | cons f rest ih =>
    cases h : rec f with
    | ok r =>
      simp [processLoop, step, h, ih, okEntries, errLog, okCount, sumTokens,
        sumTime, sumCostUsd, sumCostTl, List.replicate_succ, add_assoc,
        List.append_assoc]
    | error m =>
      simp [processLoop, step, h, ih, okEntries, errLog, okCount, sumTokens,
        sumTime, sumCostUsd, sumCostTl, List.append_assoc]

/-! ## Supporting lemmas -/

theorem length_okEntries (u : ℚ) (rec : RecognizeFn) (files : List String) :
    (okEntries u rec files).length = okCount rec files := by
  induction files with
  | nil => simp [okEntries, okCount]
  | cons f rest ih =>
    cases h : rec f <;> simp [okEntries, okCount, h, ih]

theorem sum_okEntries_tokens (u : ℚ) (rec : RecognizeFn) (files : List String) :
    ((okEntries u rec files).map Entry.entryTokens).sum = sumTokens rec files := by
  induction files with
  | nil => simp [okEntries, sumTokens]
  | cons f rest ih =>
    cases h : rec f <;>
      simp [okEntries, sumTokens, h, ih, mkItemEntry, Entry.entryTokens]

theorem okCount_le_length (rec : RecognizeFn) (files : List String) :
    okCount rec files ≤ files.length := by
  induction files with
  | nil => simp [okCount]
  | cons f rest ih =>
    cases h : rec f <;> simp [okCount, h] <;> omega

theorem okCount_eq_length_iff (rec : RecognizeFn) (files : List String) :
    okCount rec files = files.length ↔ errLog rec files = [] := by
  induction files with
  | nil => simp [okCount, errLog]
  | cons f rest ih =>
    cases h : rec f with
    | ok r => simpa [okCount, errLog, h] using ih
    | error m =>
      have := okCount_le_length rec rest
      simp [okCount, errLog, h]
      omega

theorem allFail_okEntries (u : ℚ) (rec : RecognizeFn) (files : List String)
    (h : ∀ f ∈ files, (rec f).toOption = none) :
    okEntries u rec files = [] ∧ okCount rec files = 0 ∧
      sumTokens rec files = 0 ∧ sumTime rec files = 0 ∧
      sumCostUsd u rec files = 0 ∧ sumCostTl u rec files = 0 := by
  induction files with
  | nil => simp [okEntries, okCount, sumTokens, sumTime, sumCostUsd, sumCostTl]
  | cons f rest ih =>
    have hf : (rec f).toOption = none := h f (by simp)
    cases hrf : rec f with
    | ok r => rw [hrf] at hf; simp [Except.toOption] at hf
    | error m =>
      have hrest := ih (fun g hg => h g (by simp [hg]))
      simp [okEntries, okCount, sumTokens, sumTime, sumCostUsd, sumCostTl,
        hrf, hrest]

theorem lexLe_total (a b : List Char) : lexLe a b = true ∨ lexLe b a = true := by
  induction a generalizing b with
  | nil => left; simp [lexLe]
  | cons x xs ih =>
    cases b with
    | nil => right; simp [lexLe]
    | cons y ys =>
      by_cases hxy : x.toNat < y.toNat
      · left; simp [lexLe, hxy]
      · by_cases hyx : y.toNat < x.toNat
        · right; simp [lexLe, hyx]
        · rcases ih ys with h | h
          · left; simp [lexLe, hxy, hyx, h]
          · right; simp [lexLe, hxy, hyx, h]

theorem lexLe_trans (a b c : List Char) (hab : lexLe a b = true)
    (hbc : lexLe b c = true) : lexLe a c = true := by
  induction a generalizing b c with
  | nil => simp [lexLe]
  | cons x xs ih =>
    cases b with
    | nil => simp [lexLe] at hab
    | cons y ys =>
      cases c with
      | nil => simp [lexLe] at hbc
      | cons z zs =>
        simp only [lexLe] at hab hbc ⊢
        by_cases hxy : x.toNat < y.toNat
        · by_cases hyz : y.toNat < z.toNat
          · simp [show x.toNat < z.toNat from Nat.lt_trans hxy hyz]
          · by_cases hzy : z.toNat < y.toNat
            · simp [hyz, hzy] at hbc
            · have : y.toNat = z.toNat := by omega
              simp [show x.toNat < z.toNat from this ▸ hxy]
        · by_cases hyx : y.toNat < x.toNat
          · simp [hxy, hyx] at hab
          · have hxyeq : x.toNat = y.toNat := by omega
            by_cases hyz : y.toNat < z.toNat
            · simp [show x.toNat < z.toNat from hxyeq ▸ hyz]
            · by_cases hzy : z.toNat < y.toNat
              · simp [hyz, hzy] at hbc
              · have hyzeq : y.toNat = z.toNat := by omega
                have hxz : ¬ x.toNat < z.toNat := by omega
                have hzx : ¬ z.toNat < x.toNat := by omega
                simp only [hxy, hyx, if_false, if_neg hxz, if_neg hzx] at hab ⊢
                simp only [hyz, hzy, if_false, if_neg hyz, if_neg hzy] at hbc
                exact ih ys zs hab hbc

instance : IsTotal String strLeProp :=
  ⟨fun a b => lexLe_total a.data b.data⟩

instance : IsTrans String strLeProp :=
  ⟨fun a b c => lexLe_trans a.data b.data c.data⟩

/-! ## Determinism modulo measured times (for the determinism property)

`responseTime` is the only measured (wall-clock) per-item datum; the
`Total Time` figure of the aggregate block is its sum.  Two oracle results
"agree up to time" when they differ at most in `responseTime`. -/

/-- Two oracle outcomes that differ at most in the measured
`responseTime`: both succeed with the same text and token counts, or both
fail. -/
def agreesUpToTime : Except String RecognitionOk → Except String RecognitionOk → Prop
  | .ok a, .ok b =>
    a.text = b.text ∧ a.stats.inputTokens = b.stats.inputTokens ∧
      a.stats.outputTokens = b.stats.outputTokens ∧
      a.stats.totalTokens = b.stats.totalTokens
  | .error _, .error _ => True
  | _, _ => False

/-- Zero out every measured-time field of an entry: the per-item
`Response Time` and the aggregate `Total Time`. -/
def Entry.eraseTimes : Entry → Entry
  | .item f t _ tot i o cu ct => .item f t 0 tot i o cu ct
  | .aggregate _ tot avg cu ct => .aggregate 0 tot avg cu ct

theorem okEntries_eraseTimes_congr (u : ℚ) (rec₁ rec₂ : RecognizeFn)
    (files : List String) (h : ∀ f, agreesUpToTime (rec₁ f) (rec₂ f)) :
    (okEntries u rec₁ files).map Entry.eraseTimes
      = (okEntries u rec₂ files).map Entry.eraseTimes := by
  induction files with
  | nil => simp [okEntries]
  | cons f rest ih =>
    have hf := h f
    cases h₁ : rec₁ f <;> cases h₂ : rec₂ f <;>
      rw [h₁, h₂] at hf <;> simp [agreesUpToTime] at hf <;>
      simp [okEntries, h₁, h₂, ih]
    obtain ⟨ht, hi, ho, htot⟩ := hf
    simp [mkItemEntry, Entry.eraseTimes, ht, hi, ho, htot]

theorem sums_congr (u : ℚ) (rec₁ rec₂ : RecognizeFn) (files : List String)
    (h : ∀ f, agreesUpToTime (rec₁ f) (rec₂ f)) :
    sumTokens rec₁ files = sumTokens rec₂ files ∧
      sumCostUsd u rec₁ files = sumCostUsd u rec₂ files ∧
      sumCostTl u rec₁ files = sumCostTl u rec₂ files := by
  induction files with
  | nil => simp [sumTokens, sumCostUsd, sumCostTl]
  | cons f rest ih =>
    have hf := h f
    cases h₁ : rec₁ f <;> cases h₂ : rec₂ f <;>
      rw [h₁, h₂] at hf <;> simp [agreesUpToTime] at hf <;>
      simp [sumTokens, sumCostUsd, sumCostTl, h₁, h₂, ih]
    obtain ⟨ht, hi, ho, htot⟩ := hf
    simp [hi, ho, htot, ih.1, ih.2.1, ih.2.2]

theorem calculateCost_usd_add (u : ℚ) (i₁ o₁ i₂ o₂ : ℕ) :
    (calculateCost u (i₁ + i₂) (o₁ + o₂)).usd
      = (calculateCost u i₁ o₁).usd + (calculateCost u i₂ o₂).usd := by
  simp only [calculateCost]
  push_cast
  ring

theorem calculateCost_tl_add (u : ℚ) (i₁ o₁ i₂ o₂ : ℕ) :
    (calculateCost u (i₁ + i₂) (o₁ + o₂)).tl
      = (calculateCost u i₁ o₁).tl + (calculateCost u i₂ o₂).tl := by
  simp only [calculateCost]
  push_cast
  ring

theorem sumCostUsd_eq (u : ℚ) (rec : RecognizeFn) (files : List String) :
    sumCostUsd u rec files
      = (calculateCost u (sumInputTokens rec files) (sumOutputTokens rec files)).usd := by
  induction files with
  | nil => simp [sumCostUsd, sumInputTokens, sumOutputTokens, calculateCost]
  | cons f rest ih =>
    cases h : rec f with
    | ok r =>
      simp only [sumCostUsd, sumInputTokens, sumOutputTokens, h,
        calculateCost_usd_add, ih]
    | error m => simp only [sumCostUsd, sumInputTokens, sumOutputTokens, h, ih]

theorem sumCostTl_eq (u : ℚ) (rec : RecognizeFn) (files : List String) :
    sumCostTl u rec files
      = (calculateCost u (sumInputTokens rec files) (sumOutputTokens rec files)).tl := by
  induction files with
  | nil => simp [sumCostTl, sumInputTokens, sumOutputTokens, calculateCost]
  | cons f rest ih =>
    cases h : rec f with
    | ok r =>
      simp only [sumCostTl, sumInputTokens, sumOutputTokens, h,
        calculateCost_tl_add, ih]
    | error m => simp only [sumCostTl, sumInputTokens, sumOutputTokens, h, ih]

/-! ## The claims -/

/-- C4: for all non-negative token counts, `calculateCost`'s
secondary-currency (TL) amount equals its primary-currency (USD) amount
times the single exchange-rate constant, exactly; the primary amount is
`(inputTokens/1000) * INPUT_PRICE_PER_1K + (outputTokens/1000) *
OUTPUT_PRICE_PER_1K`; and the input rate is strictly below the output
rate. -/
theorem claim4_cost_exchange (u : ℚ) (i o : ℕ) :
    (calculateCost u i o).tl = (calculateCost u i o).usd * u
      ∧ (calculateCost u i o).usd
          = ((i : ℚ) / 1000) * INPUT_PRICE_PER_1K
            + ((o : ℚ) / 1000) * OUTPUT_PRICE_PER_1K
      ∧ INPUT_PRICE_PER_1K < OUTPUT_PRICE_PER_1K :=
  ⟨rfl, rfl, by norm_num [INPUT_PRICE_PER_1K, OUTPUT_PRICE_PER_1K]⟩

/-- C10: `calculateCost` is additive component-wise (exactly, over the
rationals standing for the JS floats), and consequently the loop's
accumulated USD/TL totals equal the cost of the summed input and output
token counts of the successful items. -/
theorem claim10_cost_additive (u : ℚ) (i₁ o₁ i₂ o₂ : ℕ) (d : ℕ)
    (rec : RecognizeFn) (files : List String) :
    (calculateCost u (i₁ + i₂) (o₁ + o₂)).usd
        = (calculateCost u i₁ o₁).usd + (calculateCost u i₂ o₂).usd
      ∧ (calculateCost u (i₁ + i₂) (o₁ + o₂)).tl
          = (calculateCost u i₁ o₁).tl + (calculateCost u i₂ o₂).tl
      ∧ (processLoop u d rec files initState).totalCostUSD
          = (calculateCost u (sumInputTokens rec files) (sumOutputTokens rec files)).usd
      ∧ (processLoop u d rec files initState).totalCostTL
          = (calculateCost u (sumInputTokens rec files) (sumOutputTokens rec files)).tl := by
  refine ⟨calculateCost_usd_add u i₁ o₁ i₂ o₂, calculateCost_tl_add u i₁ o₁ i₂ o₂, ?_, ?_⟩
  · rw [processLoop_spec, ← sumCostUsd_eq]
    simp [initState]
  · rw [processLoop_spec, ← sumCostTl_eq]
    simp [initState]

/-- C7: the eligible files are exactly the directory entries whose
lowercased name ends in `.png`; they are processed in lexicographically
ascending order; and on the directory `a.png, b.PNG, c.txt, notes.md`
exactly `a.png` and `b.PNG` are selected, in that order. -/
theorem claim7_file_filtering (entries : List String) :
    (∀ f, f ∈ eligibleFiles entries ↔ f ∈ entries ∧ isEligible f = true)
      ∧ List.Sorted strLeProp (eligibleFiles entries)
      ∧ eligibleFiles ["a.png", "b.PNG", "c.txt", "notes.md"] = ["a.png", "b.PNG"] := by
  refine ⟨fun f => ?_, List.sorted_insertionSort strLeProp _, by decide⟩
  rw [eligibleFiles, (List.perm_insertionSort strLeProp _).mem_iff, List.mem_filter]

/-- C1: when the recognizer throws on file `k`, running the loop on
`k :: post` from any state equals running it on `post` alone from the same
state with only the error log extended by `(k, message)` — so the error is
logged with the file name and detail, no totals and no report entry are
added for `k`, the loop is not aborted, and every file after `k` is still
attempted; moreover `(k, message)` is in the final error log. -/
theorem claim1_failure_isolation (u : ℚ) (d : ℕ) (rec : RecognizeFn)
    (st : RunState) (k : String) (post : List String) (msg : String)
    (h : rec k = .error msg) :
    processLoop u d rec (k :: post) st
        = processLoop u d rec post { st with errors := st.errors ++ [(k, msg)] }
      ∧ (k, msg) ∈ (processLoop u d rec (k :: post) st).errors := by
  constructor
  · simp [processLoop, step, h]
  · rw [processLoop_spec]
    simp [errLog, h]

/-- Recognizer used in concrete witnesses: fails on `b.png`, succeeds on
everything else. -/
def recW : RecognizeFn := fun f =>
  if f = "b.png" then .error "API request failed: bad image"
  else .ok ⟨"AB12", ⟨1 / 2, 100, 10, 110⟩⟩

theorem claim1_failure_isolation_witness :
    recW "b.png" = Except.error "API request failed: bad image"
      ∧ (processLoop 35 1000 recW ("b.png" :: ["c.png"]) initState
            = processLoop 35 1000 recW ["c.png"]
                { initState with
                    errors := initState.errors ++ [("b.png", "API request failed: bad image")] }
          ∧ ("b.png", "API request failed: bad image")
              ∈ (processLoop 35 1000 recW ("b.png" :: ["c.png"]) initState).errors) :=
  ⟨by rfl,
    claim1_failure_isolation 35 1000 recW initState "b.png" ["c.png"] _ (by rfl)⟩

/-- Recognizer that fails on every file, used as a concrete
counterexample input. -/
def recFail : RecognizeFn := fun _ => .error "API request failed: network error"

/-- C2 counterexample: with one eligible file (`N = 1`) and configured
delay `D = 1000` ms, a failing item yields zero delay invocations, not
`N = 1` — the `setTimeout` await at line 180 sits inside the `try` block
and is skipped by the `catch`, so the delay is not performed after failed
items. -/
theorem claim2_delay_counterexample :
    (processLoop 35 1000 recFail ["a.png"] initState).delays
      ≠ List.replicate (["a.png"] : List String).length 1000 := by
  decide

/-- C2 amended: the fixed configured delay is performed once after every
successfully processed item only — it is skipped after failed items — so
over a run it is invoked exactly `okCount` times (the number of successes,
not the number of eligible files), each with the configured duration. -/
theorem claim2_amended_delay (u : ℚ) (d : ℕ) (rec : RecognizeFn)
    (files : List String) :
    (processLoop u d rec files initState).delays
      = List.replicate (okCount rec files) d := by
  rw [processLoop_spec]
  simp [initState]

/-- C3: at loop end the aggregate `totalTokens` equals the sum of the
`totalTokens` of exactly the appended (successfully processed) report
items; the processed count is at most the number of eligible files; and
it equals that number iff the error log is empty (no per-item failure). -/
theorem claim3_aggregate_invariant (u : ℚ) (d : ℕ) (rec : RecognizeFn)
    (files : List String) :
    (processLoop u d rec files initState).totalTokens
        = (((processLoop u d rec files initState).results).map Entry.entryTokens).sum
      ∧ (processLoop u d rec files initState).processedCount ≤ files.length
      ∧ ((processLoop u d rec files initState).processedCount = files.length
          ↔ (processLoop u d rec files initState).errors = []) := by
  refine ⟨?_, ?_, ?_⟩ <;> rw [processLoop_spec] <;>
    simp [initState, RunState.processedCount, length_okEntries,
      sum_okEntries_tokens, okCount_le_length, okCount_eq_length_iff]

/-- C6: under any fatal start condition — missing API credential, missing
input directory, or zero eligible files — the program exits with status 1
(non-zero) before any item is processed and writes no report: the result is
`exited`, which carries no write, and it is independent of the recognizer
oracle, so no recognition is attempted. -/
theorem claim6_fatal_config (u : ℚ) (d : ℕ) (rec : RecognizeFn)
    (env : Env) (ts : Timestamp)
    (h : env.apiKeyPresent = false ∨ env.imageDirExists = false
        ∨ eligibleFiles env.imageDirEntries = []) :
    mainRun u d rec env ts = .exited 1
      ∧ (1 : ℕ) ≠ 0
      ∧ ∀ rec₂ : RecognizeFn, mainRun u d rec₂ env ts = mainRun u d rec env ts := by
  have key : ∀ rec₀ : RecognizeFn, mainRun u d rec₀ env ts = .exited 1 := by
    intro rec₀
    rcases h with h | h | h
    · simp [mainRun, h]
    · simp [mainRun, h]
    · cases hk : env.apiKeyPresent <;> cases hd : env.imageDirExists <;>
        simp [mainRun, hk, hd, h]
  exact ⟨key rec, Nat.one_ne_zero, fun rec₂ => (key rec₂).trans (key rec).symm⟩

theorem claim6_fatal_config_witness :
    mainRun 35 1000 recFail ⟨false, true, ["a.png"]⟩ ⟨2026, 9, 12, 10, 30, 0⟩
        = .exited 1
      ∧ (1 : ℕ) ≠ 0
      ∧ ∀ rec₂ : RecognizeFn,
          mainRun 35 1000 rec₂ ⟨false, true, ["a.png"]⟩ ⟨2026, 9, 12, 10, 30, 0⟩
            = mainRun 35 1000 recFail ⟨false, true, ["a.png"]⟩ ⟨2026, 9, 12, 10, 30, 0⟩ :=
  claim6_fatal_config 35 1000 recFail ⟨false, true, ["a.png"]⟩
    ⟨2026, 9, 12, 10, 30, 0⟩ (Or.inl rfl)

/-- C5: on a run that starts (credential present, directory present, at
least one eligible file) in which every item fails, the processed count is
0, the average-tokens denominator — the eligible-file count — is positive
so the average resolves to `0` without faulting, and a report consisting of
just the aggregate block with all-zero totals is still written. -/
theorem claim5_all_failure (u : ℚ) (d : ℕ) (rec : RecognizeFn)
    (env : Env) (ts : Timestamp)
    (hkey : env.apiKeyPresent = true) (hdir : env.imageDirExists = true)
    (hne : eligibleFiles env.imageDirEntries ≠ [])
    (hfail : ∀ f ∈ eligibleFiles env.imageDirEntries, (rec f).toOption = none) :
    0 < (eligibleFiles env.imageDirEntries).length
      ∧ mainRun u d rec env ts
          = .completed (RESULTS_DIR ++ "/" ++ getTimestampFilename ts)
              [Entry.aggregate 0 0 0 0 0]
              (processLoop u d rec (eligibleFiles env.imageDirEntries) initState)
      ∧ (processLoop u d rec (eligibleFiles env.imageDirEntries) initState).processedCount
          = 0 := by
  obtain ⟨he, hc, htok, htime, husd, htl⟩ :=
    allFail_okEntries u rec (eligibleFiles env.imageDirEntries) hfail
  have hlen : (eligibleFiles env.imageDirEntries).length ≠ 0 := by
    simpa [List.length_eq_zero] using hne
  refine ⟨Nat.pos_of_ne_zero hlen, ?_, ?_⟩
  · simp only [mainRun, hkey, hdir, Bool.not_true, Bool.false_eq_true,
      if_false, if_neg hlen]
    rw [processLoop_spec]
    simp [initState, he, htok, htime, husd, htl, aggEntry]
  · rw [processLoop_spec]
    simp [initState, RunState.processedCount, he]

theorem claim5_all_failure_witness :
    0 < (eligibleFiles ["a.png"]).length
      ∧ mainRun 35 1000 recFail ⟨true, true, ["a.png"]⟩ ⟨2026, 9, 12, 10, 30, 0⟩
          = .completed
              (RESULTS_DIR ++ "/" ++ getTimestampFilename ⟨2026, 9, 12, 10, 30, 0⟩)
              [Entry.aggregate 0 0 0 0 0]
              (processLoop 35 1000 recFail (eligibleFiles ["a.png"]) initState)
      ∧ (processLoop 35 1000 recFail (eligibleFiles ["a.png"]) initState).processedCount
          = 0 :=
  claim5_all_failure 35 1000 recFail ⟨true, true, ["a.png"]⟩
    ⟨2026, 9, 12, 10, 30, 0⟩ rfl rfl (by decide) (by decide)

/-- C8: every run that reaches the write step persists, in one write, a
report made of one entry per successfully processed file — in the loop's
processing order over the lexicographically sorted eligible list — followed
by exactly one trailing aggregate block carrying the total time, total
tokens, average tokens and total cost, at a path named from the run
timestamp. -/
theorem claim8_report_shape (u : ℚ) (d : ℕ) (rec : RecognizeFn)
    (env : Env) (ts : Timestamp)
    (hkey : env.apiKeyPresent = true) (hdir : env.imageDirExists = true)
    (hne : eligibleFiles env.imageDirEntries ≠ []) :
    mainRun u d rec env ts
      = .completed (RESULTS_DIR ++ "/" ++ getTimestampFilename ts)
          (okEntries u rec (eligibleFiles env.imageDirEntries)
            ++ [aggEntry
                  (processLoop u d rec (eligibleFiles env.imageDirEntries) initState)
                  (eligibleFiles env.imageDirEntries).length])
          (processLoop u d rec (eligibleFiles env.imageDirEntries) initState) := by
  have hlen : (eligibleFiles env.imageDirEntries).length ≠ 0 := by
    simpa [List.length_eq_zero] using hne
  simp only [mainRun, hkey, hdir, Bool.not_true, Bool.false_eq_true,
    if_false, if_neg hlen]
  rw [processLoop_spec]
  simp [initState]

theorem claim8_report_shape_witness :
    mainRun 35 1000 recW ⟨true, true, ["a.png"]⟩ ⟨2026, 9, 12, 10, 30, 0⟩
      = .completed
          (RESULTS_DIR ++ "/" ++ getTimestampFilename ⟨2026, 9, 12, 10, 30, 0⟩)
          (okEntries 35 recW (eligibleFiles ["a.png"])
            ++ [aggEntry (processLoop 35 1000 recW (eligibleFiles ["a.png"]) initState)
                  (eligibleFiles ["a.png"]).length])
          (processLoop 35 1000 recW (eligibleFiles ["a.png"]) initState) :=
  claim8_report_shape 35 1000 recW ⟨true, true, ["a.png"]⟩
    ⟨2026, 9, 12, 10, 30, 0⟩ rfl rfl (by decide)

/-- C9: two runs over the same environment whose recognizer oracles return
the same fixed results up to the measured response times produce the same
report entries once every measured-time field (per-item response time and
aggregate total time) is erased; only the timestamp-derived file name and
those time fields can differ. -/
theorem claim9_determinism (u : ℚ) (d : ℕ) (rec₁ rec₂ : RecognizeFn)
    (env : Env) (ts₁ ts₂ : Timestamp)
    (hagree : ∀ f, agreesUpToTime (rec₁ f) (rec₂ f)) :
    (mainRun u d rec₁ env ts₁).entriesOf.map Entry.eraseTimes
      = (mainRun u d rec₂ env ts₂).entriesOf.map Entry.eraseTimes := by
  cases hk : env.apiKeyPresent with
  | false => simp [mainRun, hk, MainResult.entriesOf]
  | true =>
  cases hd : env.imageDirExists with
  | false => simp [mainRun, hk, hd, MainResult.entriesOf]
  | true =>
  by_cases hlen : (eligibleFiles env.imageDirEntries).length = 0
  · simp [mainRun, hk, hd, hlen, MainResult.entriesOf]
  · obtain ⟨htok, husd, htl⟩ :=
      sums_congr u rec₁ rec₂ (eligibleFiles env.imageDirEntries) hagree
    simp only [mainRun, hk, hd, Bool.not_true, Bool.false_eq_true, if_false,
      if_neg hlen, MainResult.entriesOf]
    rw [processLoop_spec, processLoop_spec]
    simp [List.map_append, initState, aggEntry, Entry.eraseTimes, htok, husd,
      htl, okEntries_eraseTimes_congr u rec₁ rec₂ _ hagree]

/-- Stub recognizer with fixed text and token counts and response time
one half. -/
def recStub1 : RecognizeFn := fun _ => .ok ⟨"AB12", ⟨1 / 2, 100, 10, 110⟩⟩

/-- Same fixed text and token counts as `recStub1`, but response time 7. -/
def recStub2 : RecognizeFn := fun _ => .ok ⟨"AB12", ⟨7, 100, 10, 110⟩⟩

theorem claim9_determinism_witness :
    (mainRun 35 1000 recStub1 ⟨true, true, ["a.png"]⟩
        ⟨2026, 9, 12, 10, 30, 0⟩).entriesOf.map Entry.eraseTimes
      = (mainRun 35 1000 recStub2 ⟨true, true, ["a.png"]⟩
          ⟨2026, 9, 12, 11, 45, 59⟩).entriesOf.map Entry.eraseTimes :=
  claim9_determinism 35 1000 recStub1 recStub2 ⟨true, true, ["a.png"]⟩
    ⟨2026, 9, 12, 10, 30, 0⟩ ⟨2026, 9, 12, 11, 45, 59⟩
    (fun _ => ⟨rfl, rfl, rfl, rfl⟩)

end Captcha
